import Mathlib

set_option autoImplicit false

namespace Melange

/-! Shallow embedding of the melange tensor layout engine and autograd graph.
Scalars are modelled as `Int`, buffers as `List Int`, runtime shapes and
strides as `List Nat`.  Every definition is translated from the Rust source
file named in its doc comment. -/

/-- Function `intrinsic_strides_in_place` from `src/tensor/shape.rs`: walks the
shape from the innermost axis outward, replacing each dimension by the running
product of the dimensions strictly to its right (row-major cumulative
products). -/
def intrinsic_strides_in_place (shape : List Nat) : List Nat :=
  (shape.reverse.foldl (fun (acc : List Nat × Nat) x => (acc.2 :: acc.1, acc.2 * x)) ([], 1)).1

/-- Constant `NUM_ELEMENTS` of the `StaticShape` trait in `src/tensor/shape.rs`:
`D::USIZE * A::NUM_ELEMENTS` recursively, i.e. the product of all dimensions. -/
def NUM_ELEMENTS (shape : List Nat) : Nat :=
  shape.foldr (· * ·) 1

/-- Structure `SliceLayout` from `src/tensor/slice_layout/mod.rs`: a borrowed
view described by a backing buffer, a runtime shape, runtime strides, the
number of logical elements and the optimal chunk size. -/
structure SliceLayout where
  data : List Int
  shape : List Nat
  strides : List Nat
  num_elements : Nat
  opt_chunk_size : Nat
  deriving Repr, DecidableEq

namespace SliceLayout

/-- Method `linear_index` from `src/tensor/slice_layout/mod.rs`:
`position.iter().rev().zip(self.strides.iter().rev()).fold(0, |acc,(x,y)| acc + x*y)`.
Rust's `zip` truncates to the shorter iterator, so when `position` is longer
than `strides` only the trailing `strides.length` entries of `position`
participate. -/
def linear_index (l : SliceLayout) (position : List Nat) : Nat :=
  (position.reverse.zip l.strides.reverse).foldl (fun acc p => acc + p.1 * p.2) 0

/-- Method `chunk_at` from `src/tensor/slice_layout/mod.rs`: the sub-slice
`&self.data[index .. index + size]` at the linear index of `position`. -/
def chunk_at (l : SliceLayout) (position : List Nat) (size : Nat) : List Int :=
  (l.data.drop (l.linear_index position)).take size

/-- The logical element stored at a per-axis position: the backing element at
the stride dot-product offset.  This is the semantic reading of the view used
to state correctness properties. -/
def logical_get (l : SliceLayout) (pos : List Nat) : Int :=
  l.data.getD (l.linear_index pos) 0

end SliceLayout

/-- Structure `StridedChunks` from `src/tensor/slice_layout/strided_chunks.rs`
(without the layout reference, which is passed separately). -/
structure StridedChunks where
  counter : List Nat
  step_sizes : List Nat
  dead : Bool
  chunk_size : Nat
  deriving Repr, DecidableEq

/-- Constructor `StridedChunks::new`: the step sizes are derived by walking the
shape innermost-first, consuming the requested chunk size (`*x = 1` when the
remaining chunk size is smaller than the axis extent, otherwise the extent is
kept and the chunk size is divided by it); the possibly reduced chunk size is
stored, and the counter is initialised as `vec![0; layout.num_elements]`. -/
def StridedChunks.new (layout : SliceLayout) (chunk_size : Nat) : StridedChunks :=
  let sc := layout.shape.reverse.foldl
    (fun (acc : List Nat × Nat) x =>
      if acc.2 < x then (1 :: acc.1, acc.2) else (x :: acc.1, acc.2 / x))
    ([], chunk_size)
  { counter := List.replicate layout.num_elements 0
    step_sizes := sc.1
    dead := false
    chunk_size := sc.2 }

/-- The odometer loop body of `StridedChunks::next`, processing the zipped
(digit, step, bound) triples innermost-first (the `.rev()` iteration order).
Returns the updated digits in the same innermost-first order together with
`true` when the loop exited early via `return Some(chunk)` (iterator still
alive) and `false` when every digit overflowed (iterator is now dead). -/
def odometer : List (Nat × Nat × Nat) → List Nat × Bool
  | [] => ([], false)
  | (d, s, b) :: rest =>
    if d + s ≥ b then
      let r := odometer rest
      (0 :: r.1, r.2)
    else ((d + s) :: rest.map (fun t => t.1), true)

/-- Method `StridedChunks::next`: yields the chunk at the current counter, then
increments the counter.  Rust's double-ended `zip` truncates to the shortest
iterator and pairs elements front-aligned, so only the first
`min counter.length (min step_sizes.length shape.length)` digits of the
counter participate in the increment; the remaining digits are untouched. -/
def StridedChunks.next (layout : SliceLayout) (s : StridedChunks) :
    Option (List Int × StridedChunks) :=
  if s.dead then none
  else
    let chunk := layout.chunk_at s.counter s.chunk_size
    let triples := (s.counter.zip (s.step_sizes.zip layout.shape)).map
      (fun p => (p.1, p.2.1, p.2.2))
    let st := odometer triples.reverse
    let counter := st.1.reverse ++ s.counter.drop triples.length
    some (chunk, { s with counter := counter, dead := !st.2 })

/-- Collect the iterator's outputs, bounded by fuel. -/
def StridedChunks.run (layout : SliceLayout) : Nat → StridedChunks → List (List Int)
  | 0, _ => []
  | fuel + 1, s =>
    match s.next layout with
    | none => []
    | some (c, s2) => c :: StridedChunks.run layout fuel s2

/-- Method `chunks` of the `Layout` impl for `SliceLayout`: the full sequence
of chunks yielded by `StridedChunks::new(self, chunk_size)`.  The fuel
`num_elements + 1` exceeds the number of odometer states, so the list is the
complete output of the iterator. -/
def SliceLayout.chunks (l : SliceLayout) (chunk_size : Nat) : List (List Int) :=
  StridedChunks.run l (l.num_elements + 1) (StridedChunks.new l chunk_size)

/-- Implementation of `PartialEq` for `SliceLayout`
(`src/tensor/slice_layout/mod.rs` lines 115-137): compare shapes, then compare
the zipped chunk streams at the minimum optimal chunk size elementwise. -/
def SliceLayout.beq (a b : SliceLayout) : Bool :=
  let chunk_size := min a.opt_chunk_size b.opt_chunk_size
  if a.shape = b.shape then
    ((a.chunks chunk_size).zip (b.chunks chunk_size)).all
      (fun p => (p.1.zip p.2).all (fun q => q.1 == q.2))
  else false

/-- Helper mirroring the Rust idiom
`xs.iter_mut().rev().zip(ys.iter().rev()).for_each(|(x,y)| *x = x*y)`:
the last `min xs.length ys.length` entries of `xs` are multiplied end-aligned
with the last entries of `ys`; the leading entries of `xs` are unchanged. -/
def rev_zip_mul (xs ys : List Nat) : List Nat :=
  let t := ((xs.reverse.zip ys.reverse).map (fun p => p.1 * p.2)).reverse
  xs.take (xs.length - t.length) ++ t

/-- Method `Tensor::broadcast` for statically shaped tensors
(`src/tensor/tensor.rs` lines 133-173), parameterised by the source static
shape `sShape`, the target static shape `zShape`, the strides reported by the
underlying layout, and its backing buffer.  External strides are obtained by
dividing the layout strides by the intrinsic strides, except that axes of
size 1 get external stride 0; the target intrinsic strides are zero-padded on
the new leading axes and multiplied end-aligned by the external strides; the
optimal chunk size is the target intrinsic stride at the innermost zero final
stride, or the whole element count when no stride is zero. -/
def broadcast_static (sShape zShape selfStrides : List Nat) (data : List Int) :
    SliceLayout :=
  let internal_strides := intrinsic_strides_in_place sShape
  let external_strides := (selfStrides.zip (internal_strides.zip sShape)).map
    (fun p => if p.2.2 = 1 then 0 else p.1 / p.2.1)
  let strides0 := intrinsic_strides_in_place zShape
  let len := strides0.length
  let k := len - external_strides.length
  let strides1 := List.replicate (min k len) 0 ++ strides0.drop k
  let strides2 := rev_zip_mul strides1 external_strides
  let opt_chunk_size :=
    match (strides2.reverse.zip (intrinsic_strides_in_place zShape).reverse).find?
      (fun p => p.1 == 0) with
    | some p => p.2
    | none => NUM_ELEMENTS zShape
  { data := data
    shape := zShape
    strides := strides2
    num_elements := NUM_ELEMENTS zShape
    opt_chunk_size := opt_chunk_size }

/-- Method `strides` of the `Layout` impl for `StaticHeapLayout`
(`src/tensor/static_heap_layout.rs` lines 58-61): returns `S::strides()`,
the intrinsic row-major strides of the static shape. -/
def StaticHeapLayout.strides (S : List Nat) : List Nat :=
  intrinsic_strides_in_place S

/-- Method `strides` of the `Layout` impl for `StackLayout`
(`src/tensor/stack_layout.rs` lines 41-44): the source returns `S::to_vec()`,
the shape itself. -/
def StackLayout.strides (S : List Nat) : List Nat :=
  S

/-- The strides and element count computed by `DynamicFill::fill` for
`HeapLayout` (`src/tensor/heap_layout.rs` lines 29-48): the same reverse
running-product loop as `intrinsic_strides_in_place`, also accumulating the
total element count. -/
def HeapLayout.fill_strides (shape : List Nat) : List Nat × Nat :=
  shape.reverse.foldl (fun (acc : List Nat × Nat) x => (acc.2 :: acc.1, acc.2 * x)) ([], 1)

/-- Type operator `StridedDim` from `src/tensor/shape.rs` (lines 264-277).
The impl for `UInt<U, B>` has output `Sum<Div<U, V>, Gr<Rem<U, V>, U0>>`:
`Div` and `Rem` are applied to `U`, which is the *high bits* of the typenum
dimension (`UInt<U, B>` encodes the value `2*U + B`), not to the dimension
itself.  For a runtime dimension `u` the operand is therefore `u / 2`, and
the output is `(u / 2) / v` plus one exactly when `(u / 2) % v` is
positive. -/
def strided_dim (u v : Nat) : Nat :=
  u / 2 / v + (if u / 2 % v > 0 then 1 else 0)

/-- Type operator `StridedShape` from `src/tensor/shape.rs` applied axis-wise:
the shape produced by the statically shaped `Tensor::stride` path. -/
def strided_shape (dims steps : List Nat) : List Nat :=
  List.zipWith strided_dim dims steps

/-- The runtime shape computed by the dynamically shaped `Tensor::stride`
(`src/tensor/tensor.rs` lines 274-306): the layout strides are first
multiplied axis-wise by the step vector, and the new shape is then obtained by
dividing each old dimension by the corresponding entry of that *multiplied
strides* vector (`*x = *x / *y + (*x % *y).min(1)`). -/
def stride_dynamic_shape (selfShape selfStrides step : List Nat) : List Nat :=
  let strides := List.zipWith (· * ·) selfStrides step
  List.zipWith (fun x y => x / y + min (x % y) 1) selfShape strides

/-- Rust's `Debug` rendering of a `Vec<usize>`, as produced by the `{:?}`
format specifier: comma-space separated entries between square brackets. -/
def rust_debug_list (l : List Nat) : String :=
  "[" ++ String.intercalate ", " (l.map toString) ++ "]"

/-- The panic message produced by `assert_shape_eq` in
`src/tensor/core_ops.rs` (lines 44-52) with the two shapes interpolated. -/
def shape_mismatch_msg (lhs rhs : List Nat) : String :=
  "Tensors must have same shape, got " ++ rust_debug_list lhs ++ " and " ++
    rust_debug_list rhs ++
    ". The use of static shapes (compile-time-known type-level shapes) is strongly recommended."

/-- Function `assert_shape_eq` from `src/tensor/core_ops.rs`: an `assert_eq!`
that aborts (modelled as `Except.error` carrying the panic message) exactly
when the two runtime shapes differ. -/
def assert_shape_eq (lhs rhs : List Nat) : Except String Unit :=
  if lhs = rhs then Except.ok () else Except.error (shape_mismatch_msg lhs rhs)

/-- The `operation_dynamic` method generated for `AddDynamic` in
`src/tensor/core_ops.rs` (lines 314-335): assert the runtime shapes equal,
then compute the elementwise sum into a freshly allocated contiguous output
(elementwise `zipWith` is the chunked kernel's effect on contiguous
operands). -/
def add_operation_dynamic (lhsShape rhsShape : List Nat) (lhs rhs : List Int) :
    Except String (List Int) :=
  match assert_shape_eq lhsShape rhsShape with
  | Except.error e => Except.error e
  | Except.ok _ => Except.ok (List.zipWith (· + ·) lhs rhs)

/-- Boolean test that `needle` is an initial segment of `hay`. -/
def starts_with : List Char → List Char → Bool
  | [], _ => true
  | _ :: _, [] => false
  | a :: as, b :: bs => a == b && starts_with as bs

/-- Boolean test that `needle` occurs contiguously somewhere in `hay`. -/
def contains_sub (needle : List Char) : List Char → Bool
  | [] => starts_with needle []
  | c :: rest => starts_with needle (c :: rest) || contains_sub needle rest

/-- String-level wrapper of `contains_sub`: `needle` occurs in `hay`. -/
def str_contains (hay needle : String) : Bool :=
  contains_sub needle.data hay.data

/-- The `TryFrom<Vec<T>>` impl for statically shaped tensors
(`src/tensor/tensor.rs` lines 70-89): a typed, recoverable `Err` when the
vector length differs from `S::NUM_ELEMENTS`, otherwise a tensor whose
`StaticHeapLayout` owns exactly the given vector. -/
def try_from_static (S : List Nat) (v : List Int) : Except String (List Int) :=
  if NUM_ELEMENTS S ≠ v.length then
    Except.error ("Given vector is not compatible with type-level shape: got " ++
      toString v.length ++ " elements instead of " ++ toString (NUM_ELEMENTS S))
  else Except.ok v

/-- The `TryFrom<Vec<T>>` impl for dynamically shaped tensors
(`src/tensor/tensor.rs` lines 91-116).  `Reduction<U0>` replaces the leading
(outermost) axis of the type-level shape with 1, so the reduced shape is
`1 :: trailing` where `trailing` are the static trailing dimensions; its
element count `k` divides the vector length or a typed error is returned, and
on success `shape[0]` is overwritten with `v.len() / k` while the strides are
the intrinsic strides of the reduced shape.  The result carries (shape,
strides, data) of the constructed `HeapLayout`. -/
def try_from_dynamic (trailing : List Nat) (v : List Int) :
    Except String (List Nat × List Nat × List Int) :=
  let k := NUM_ELEMENTS (1 :: trailing)
  if v.length % k ≠ 0 then
    Except.error ("Given vector is not compatible with type-level shape: got " ++
      toString v.length ++ " elements instead of a multiple of " ++ toString k)
  else
    Except.ok ((v.length / k) :: trailing, intrinsic_strides_in_place (1 :: trailing), v)

/-- Method `Tensor::transpose` (`src/tensor/tensor.rs` lines 338-355): the
view with shape and strides reversed, the same element count, and view
`opt_chunk_size` 1. -/
def transpose_view (l : SliceLayout) : SliceLayout :=
  { data := l.data
    shape := l.shape.reverse
    strides := l.strides.reverse
    num_elements := l.num_elements
    opt_chunk_size := 1 }

/-- The three zero-sized transpose policies of
`src/tensor/transpose_policy.rs`. -/
inductive TransposePolicy
  | Contiguous
  | Transposed
  | Strided
  deriving DecidableEq, Repr

/-- The `Transposed` associated type of the `TransposePolicy` trait
(`src/tensor/transpose_policy.rs` lines 39-57): `Contiguous` maps to
`Transposed`, `Transposed` maps back to `Contiguous`, `Strided` stays
`Strided`. -/
def TransposePolicy.transposed : TransposePolicy → TransposePolicy
  | TransposePolicy.Contiguous => TransposePolicy.Transposed
  | TransposePolicy.Transposed => TransposePolicy.Contiguous
  | TransposePolicy.Strided => TransposePolicy.Strided

/-! The autograd graph of `src/backprop`.  Tensors in the claims' scenarios
are contiguous `StaticHeapLayout`s, for which the chunked kernels reduce to
elementwise maps, so tensor values are flat `List Int` and the tensor `add`
and `mul` operations are `zipWith`. -/

/-- Elementwise tensor addition (`add` / in-place `add_`). -/
def tadd (a b : List Int) : List Int :=
  List.zipWith (· + ·) a b

/-- Elementwise tensor multiplication (`mul` / in-place `mul_`). -/
def tmul (a b : List Int) : List Int :=
  List.zipWith (· * ·) a b

/-- The backward closures recorded by the leaf constructor and by the `add`
and `mul` compositions of `src/backprop/core_ops.rs`; the operand variables
captured by a closure are identified by their arena indices. -/
inductive BClosure
  | noop
  | add_back (selfIdx otherIdx : Nat)
  | mul_back (selfIdx otherIdx : Nat)
  deriving DecidableEq, Repr

/-- Structure `BackpropNode` from `src/backprop/variable.rs`: the current
value tensor, the optional gradient accumulator and the replay closure. -/
structure BackpropNode where
  value : List Int
  grad : Option (List Int)
  closure : BClosure
  deriving DecidableEq, Repr

/-- The arena of shared graph nodes (each `Variable` is an `Rc<RefCell<..>>`
handle; we model the heap of nodes as a list indexed by allocation order). -/
abbrev Store := List BackpropNode

/-- The value tensor of the node at index `i` (empty for a dangling index). -/
def value_at : Store → Nat → List Int
  | [], _ => []
  | n :: _, 0 => n.value
  | _ :: rest, i + 1 => value_at rest i

/-- The gradient accumulator of the node at index `i`; this is what
`Variable::grad` clones and returns. -/
def grad_at : Store → Nat → Option (List Int)
  | [], _ => none
  | n :: _, 0 => n.grad
  | _ :: rest, i + 1 => grad_at rest i

/-- The replay closure of the node at index `i`. -/
def closure_at : Store → Nat → Option BClosure
  | [], _ => none
  | n :: _, 0 => some n.closure
  | _ :: rest, i + 1 => closure_at rest i

/-- The gradient-accumulation step of `Variable::backward`
(`src/backprop/variable.rs` lines 98-108):
`if let Some(current_grad) = &mut node.grad { current_grad.add_(&grad); }` —
an existing accumulator is added into in place, a `None` accumulator is left
untouched. -/
def accumulate : Store → Nat → List Int → Store
  | [], _, _ => []
  | n :: rest, 0, g => { n with grad := n.grad.map (fun cg => tadd cg g) } :: rest
  | n :: rest, i + 1, g => n :: accumulate rest i g

/-- Method `Variable::backward`: accumulate the incoming gradient into the
node's accumulator when one exists, then invoke the replay closure.  The
`add` closure forwards the incoming gradient unchanged to both operands; the
`mul` closure sends `grad * other.value` to `self` and `grad * self.value` to
`other` (`src/backprop/core_ops.rs` lines 17-46).  Recursion is bounded by
fuel; any fuel at least the graph depth yields the exact replay. -/
def backward : Nat → Store → Nat → List Int → Store
  | 0, store, _, _ => store
  | fuel + 1, store, i, g =>
    let store1 := accumulate store i g
    match closure_at store1 i with
    | none => store1
    | some BClosure.noop => store1
    | some (BClosure.add_back s o) =>
      let other_grad := g
      let store2 := backward fuel store1 s g
      backward fuel store2 o other_grad
    | some (BClosure.mul_back s o) =>
      let other_grad := tmul g (value_at store1 s)
      let g2 := tmul g (value_at store1 o)
      let store2 := backward fuel store1 s g2
      backward fuel store2 o other_grad

/-- Constructor `New::new` for statically shaped variables
(`src/backprop/variable.rs` lines 153-169): a leaf node with a no-op closure
and, iff `require_grad`, a zero accumulator (`Tensor::default()`) shaped like
the value. -/
def variable_new (store : Store) (value : List Int) (require_grad : Bool) : Store :=
  store ++ [{ value := value
              grad := if require_grad then some (List.replicate value.length 0) else none
              closure := BClosure.noop }]

/-- The `add` composition of variables (`src/backprop/core_ops.rs`): the
forward value is the tensor sum; the result gets a zero accumulator iff
either operand has one; the recorded closure captures both operand handles. -/
def variable_add (store : Store) (s o : Nat) : Store :=
  let value := tadd (value_at store s) (value_at store o)
  store ++ [{ value := value
              grad := if (grad_at store s).isSome || (grad_at store o).isSome then
                  some (List.replicate value.length 0)
                else none
              closure := BClosure.add_back s o }]

/-- The `mul` composition of variables (`src/backprop/core_ops.rs`),
analogous to `variable_add` with the product-rule closure. -/
def variable_mul (store : Store) (s o : Nat) : Store :=
  let value := tmul (value_at store s) (value_at store o)
  store ++ [{ value := value
              grad := if (grad_at store s).isSome || (grad_at store o).isSome then
                  some (List.replicate value.length 0)
                else none
              closure := BClosure.mul_back s o }]

/-- One user-visible action on the autograd graph: creating a leaf variable,
composing two existing variables with `add` or `mul`, or invoking `backward`
on any node with any gradient. -/
inductive GraphOp
  | new_var (value : List Int) (require_grad : Bool)
  | add_op (s o : Nat)
  | mul_op (s o : Nat)
  | backward_op (fuel i : Nat) (g : List Int)

/-- Apply a single graph action to the arena. -/
def apply_op (store : Store) : GraphOp → Store
  | GraphOp.new_var v r => variable_new store v r
  | GraphOp.add_op s o => variable_add store s o
  | GraphOp.mul_op s o => variable_mul store s o
  | GraphOp.backward_op fuel i g => backward fuel store i g

/-- Apply a finite sequence of graph actions. -/
def apply_ops (store : Store) (ops : List GraphOp) : Store :=
  ops.foldl apply_op store

/-- The concrete layout of the failing input for the strided-chunks claim:
a one-axis view of two elements with unit stride. -/
def c1_layout : SliceLayout :=
  { data := [10, 20], shape := [2], strides := [1], num_elements := 2, opt_chunk_size := 1 }

/-- The broadcast of the `[1,2]`-shaped tensor with data `[1,2]` (whose
`StaticHeapLayout` reports the intrinsic strides of `[1,2]`) to the target
shape `[2,2]`. -/
def broadcast_example : SliceLayout :=
  broadcast_static [1, 2] [2, 2] (StaticHeapLayout.strides [1, 2]) [1, 2]

/-- The `[[1,2],[1,2]]` tensor viewed as a slice layout (contiguous data
`[1,2,1,2]`, intrinsic strides, full-buffer chunks). -/
def broadcast_expected : SliceLayout :=
  { data := [1, 2, 1, 2], shape := [2, 2], strides := [2, 1], num_elements := 4,
    opt_chunk_size := 4 }

/-- The graph of the autograd scenario: a = [[1,2],[3,4]] tracked (index 0),
b = [[2,1],[0,2]] untracked (index 1), c = [[1,0],[0,1]] untracked (index 2),
a*b (index 3), (a*b)+c (index 4), then backward on index 4 with ones. -/
def c3_store : Store :=
  apply_ops [] [
    GraphOp.new_var [1, 2, 3, 4] true,
    GraphOp.new_var [2, 1, 0, 2] false,
    GraphOp.new_var [1, 0, 0, 1] false,
    GraphOp.mul_op 0 1,
    GraphOp.add_op 3 2,
    GraphOp.backward_op 8 4 [1, 1, 1, 1]]

/-! Helper lemmas shared by the claim theorems. -/

theorem starts_with_append (n suf : List Char) : starts_with n (n ++ suf) = true := by
  induction n with
  | nil => rfl
  | cons a as ih => simp [starts_with, ih]

theorem contains_sub_self_append (n suf : List Char) : contains_sub n (n ++ suf) = true := by
  have hs := starts_with_append n suf
  cases h : n ++ suf with
  | nil =>
    have hn : n = [] := (List.append_eq_nil.mp h).1
    rw [hn]
    rfl
  | cons c rest =>
    rw [h] at hs
    simp [contains_sub, hs]

theorem contains_sub_append (n pre suf : List Char) :
    contains_sub n (pre ++ (n ++ suf)) = true := by
  induction pre with
  | nil => simpa using contains_sub_self_append n suf
  | cons c ps ih => simp [contains_sub, ih]

theorem str_contains_parts (pre needle suf : String) :
    str_contains (pre ++ needle ++ suf) needle = true := by
  unfold str_contains
  have h : (pre ++ needle ++ suf).data = pre.data ++ (needle.data ++ suf.data) := by
    simp [String.data_append]
  rw [h]
  exact contains_sub_append needle.data pre.data suf.data

theorem shape_mismatch_msg_mentions (lhs rhs : List Nat) :
    str_contains (shape_mismatch_msg lhs rhs) (rust_debug_list lhs) = true ∧
    str_contains (shape_mismatch_msg lhs rhs) (rust_debug_list rhs) = true := by
  constructor
  · unfold str_contains shape_mismatch_msg
    simp only [String.data_append, List.append_assoc]
    exact contains_sub_append _ _ _
  · unfold str_contains shape_mismatch_msg
    simp only [String.data_append, List.append_assoc]
    have h := contains_sub_append (rust_debug_list rhs).data
      ("Tensors must have same shape, got ".data ++ ((rust_debug_list lhs).data ++ " and ".data))
      ". The use of static shapes (compile-time-known type-level shapes) is strongly recommended.".data
    simpa [List.append_assoc] using h

theorem accumulate_length (store : Store) (j : Nat) (g : List Int) :
    (accumulate store j g).length = store.length := by
  induction store generalizing j with
  | nil => rfl
  | cons n rest ih =>
    cases j with
    | zero => rfl
    | succ j => simp [accumulate, ih]

theorem grad_at_accumulate_none (store : Store) (j : Nat) (g : List Int) (i : Nat)
    (h : grad_at store i = none) : grad_at (accumulate store j g) i = none := by
  induction store generalizing i j with
  | nil => simpa [accumulate] using h
  | cons n rest ih =>
    cases j with
    | zero =>
      cases i with
      | zero =>
        simp [grad_at] at h
        simp [accumulate, grad_at, h]
      | succ i => simpa [accumulate, grad_at] using h
    | succ j =>
      cases i with
      | zero => simpa [accumulate, grad_at] using h
      | succ i =>
        simp [grad_at] at h
        simpa [accumulate, grad_at] using ih j i h

theorem grad_at_backward_none (fuel : Nat) (store : Store) (j : Nat) (g : List Int) (i : Nat)
    (h : grad_at store i = none) : grad_at (backward fuel store j g) i = none := by
  induction fuel generalizing store j g with
  | zero => simpa [backward] using h
  | succ fuel ih =>
    have h1 := grad_at_accumulate_none store j g i h
    unfold backward
    cases hc : closure_at (accumulate store j g) j with
    | none => simpa [hc] using h1
    | some c =>
      cases c with
      | noop => simpa [hc] using h1
      | add_back s o =>
        simp only [hc]
        exact ih _ _ _ (ih _ _ _ h1)
      | mul_back s o =>
        simp only [hc]
        exact ih _ _ _ (ih _ _ _ h1)

theorem backward_length (fuel : Nat) (store : Store) (j : Nat) (g : List Int) :
    (backward fuel store j g).length = store.length := by
  induction fuel generalizing store j g with
  | zero => rfl
  | succ fuel ih =>
    unfold backward
    cases hc : closure_at (accumulate store j g) j with
    | none => simp [hc, accumulate_length]
    | some c => cases c <;> simp [hc, ih, accumulate_length]

theorem grad_at_append (store l : Store) (i : Nat) (h : i < store.length) :
    grad_at (store ++ l) i = grad_at store i := by
  induction store generalizing i with
  | nil => exact absurd h (Nat.not_lt_zero i)
  | cons n rest ih =>
    cases i with
    | zero => rfl
    | succ i => exact ih i (Nat.lt_of_succ_lt_succ h)

theorem grad_at_apply_op_none (store : Store) (op : GraphOp) (i : Nat)
    (hlt : i < store.length) (h : grad_at store i = none) :
    grad_at (apply_op store op) i = none := by
  cases op with
  | new_var v r =>
    show grad_at (store ++ _) i = none
    rw [grad_at_append _ _ _ hlt]; exact h
  | add_op s o =>
    show grad_at (store ++ _) i = none
    rw [grad_at_append _ _ _ hlt]; exact h
  | mul_op s o =>
    show grad_at (store ++ _) i = none
    rw [grad_at_append _ _ _ hlt]; exact h
  | backward_op fuel j g => exact grad_at_backward_none fuel store j g i h

theorem length_apply_op (store : Store) (op : GraphOp) :
    store.length ≤ (apply_op store op).length := by
  cases op with
  | new_var v r => simp [apply_op, variable_new]
  | add_op s o => simp [apply_op, variable_add]
  | mul_op s o => simp [apply_op, variable_mul]
  | backward_op fuel j g => simp [apply_op, backward_length]

/-! Claim theorems. -/

/-- C1: the claim states that each `StridedChunks::next` yields the chunk at
the offset given by the dot product of the current per-axis counter and the
strides, incrementing the counter odometer-style so that the chunk sequence
covers the view's logical positions in row-major order.  On the code this
fails: the counter is initialised with `num_elements` digits instead of one
per axis, the odometer increments the first `rank` digits while the offset
dot product reads the last `rank` digits, so every chunk starts at offset 0.
For the view with data `[10, 20]`, shape `[2]`, strides `[1]` and chunk size
1, the iterator yields `[10], [10]` instead of the row-major `[10], [20]`. -/
theorem strided_chunks_counter_bug :
    c1_layout.chunks 1 = [[10], [10]] ∧ c1_layout.chunks 1 ≠ [[10], [20]] := by
  decide

/-- C2: broadcasting the static `[1,2]`-shaped tensor with data `[1,2]` to
`[2,2]` yields a view with strides `[0,1]` (the expanded size-1 axis gets
stride 0) and `opt_chunk_size` 2, which compares equal (via the
`SliceLayout` `PartialEq`) to the tensor `[[1,2],[1,2]]` and whose logical
elements are `[[1,2],[1,2]]`. -/
theorem broadcast_1x2_to_2x2_spec :
    broadcast_example.strides = [0, 1] ∧
    broadcast_example.opt_chunk_size = 2 ∧
    broadcast_example.shape = [2, 2] ∧
    SliceLayout.beq broadcast_example broadcast_expected = true ∧
    broadcast_example.logical_get [0, 0] = 1 ∧
    broadcast_example.logical_get [0, 1] = 2 ∧
    broadcast_example.logical_get [1, 0] = 1 ∧
    broadcast_example.logical_get [1, 1] = 2 := by
  decide

/-- C3: with a = [[1,2],[3,4]] tracked, b = [[2,1],[0,2]] untracked and
c = [[1,0],[0,1]] untracked, computing (a*b)+c and calling backward with a
tensor of ones leaves a's gradient accumulator equal to b (the mul closure
dispatches the incoming gradient times the other operand's value, the add
closure passes the gradient through), while b and c stay without
accumulators. -/
theorem mul_add_backward_grad_is_b :
    grad_at c3_store 0 = some [2, 1, 0, 2] ∧
    grad_at c3_store 0 = some (value_at c3_store 1) ∧
    grad_at c3_store 1 = none ∧
    grad_at c3_store 2 = none := by
  decide

/-- C4: the claim states that all three owned contiguous layouts report
strides equal to the row-major cumulative products of the shape.  The code
contradicts it for `StackLayout`, whose `strides` method returns
`S::to_vec()` — the shape itself: for the static shape `[2,2]` it returns
`[2,2]` while the row-major strides (returned by `StaticHeapLayout` and
computed by `HeapLayout`'s fill) are `[2,1]`. -/
theorem stack_layout_strides_are_shape :
    StackLayout.strides [2, 2] = [2, 2] ∧
    intrinsic_strides_in_place [2, 2] = [2, 1] ∧
    StaticHeapLayout.strides [2, 2] = [2, 1] ∧
    (HeapLayout.fill_strides [2, 2]).1 = [2, 1] ∧
    StackLayout.strides [2, 2] ≠ intrinsic_strides_in_place [2, 2] := by
  decide

/-- C5: the claim states that both stride paths produce the per-axis shape
`ceil(oldDim / step)`.  Neither does.  The statically shaped path applies
`Div` and `Rem` to the high bits of the typenum dimension, so `StridedDim`
on dimension 2 with step 1 yields 1 instead of `ceil(2 / 1) = 2`, and the
type-level `StridedShape` of `[2,2]` strided by `[1,1]` is `[1,1]`.  The
dynamically shaped path divides each old dimension by the corresponding
*multiplied stride* (old stride times step) instead of by the step: striding
the contiguous `[2,2]` tensor (strides `[2,1]`) by the identity step `[1,1]`
yields shape `[1,2]`.  Both differ from the claimed `[2,2]`. -/
theorem stride_shape_bug :
    strided_dim 2 1 = 1 ∧
    strided_shape [2, 2] [1, 1] = [1, 1] ∧
    strided_shape [2, 2] [1, 1] ≠ [2, 2] ∧
    stride_dynamic_shape [2, 2] (intrinsic_strides_in_place [2, 2]) [1, 1] = [1, 2] ∧
    stride_dynamic_shape [2, 2] (intrinsic_strides_in_place [2, 2]) [1, 1] ≠ [2, 2] := by
  decide

/-- C6: a binary elementwise operation on dynamically shaped operands
succeeds exactly when the runtime shapes are equal, and on a mismatch it
aborts with the `assert_shape_eq` panic whose message states both shapes
(no truncation or padding ever happens). -/
theorem add_dynamic_shape_assertion (lS rS : List Nat) (lD rD : List Int) :
    (lS = rS → add_operation_dynamic lS rS lD rD = Except.ok (List.zipWith (· + ·) lD rD)) ∧
    (lS ≠ rS →
      add_operation_dynamic lS rS lD rD = Except.error (shape_mismatch_msg lS rS) ∧
      str_contains (shape_mismatch_msg lS rS) (rust_debug_list lS) = true ∧
      str_contains (shape_mismatch_msg lS rS) (rust_debug_list rS) = true) := by
  constructor
  · intro h
    simp [add_operation_dynamic, assert_shape_eq, h]
  · intro h
    refine ⟨?_, (shape_mismatch_msg_mentions lS rS).1, (shape_mismatch_msg_mentions lS rS).2⟩
    simp [add_operation_dynamic, assert_shape_eq, h]

/-- Witness for C6 at the claimed concrete input: adding a `[3,3]` dynamic
tensor to a `[2,2]`-shaped operand aborts with the message naming both
shapes. -/
theorem add_dynamic_shape_assertion_witness :
    add_operation_dynamic [3, 3] [2, 2] (List.replicate 9 1) (List.replicate 4 1) =
      Except.error (shape_mismatch_msg [3, 3] [2, 2]) ∧
    str_contains (shape_mismatch_msg [3, 3] [2, 2]) (rust_debug_list [3, 3]) = true ∧
    str_contains (shape_mismatch_msg [3, 3] [2, 2]) (rust_debug_list [2, 2]) = true :=
  (add_dynamic_shape_assertion [3, 3] [2, 2] (List.replicate 9 1) (List.replicate 4 1)).2
    (by decide)

/-- C7: `try_from` on a statically shaped tensor returns a typed, recoverable
error exactly when the vector length differs from the product of the static
dimensions, and on success the backing data is exactly the given vector. -/
theorem try_from_static_spec (S : List Nat) (v : List Int) :
    ((try_from_static S v).isOk = true ↔ v.length = NUM_ELEMENTS S) ∧
    (v.length = NUM_ELEMENTS S → try_from_static S v = Except.ok v) ∧
    (v.length ≠ NUM_ELEMENTS S → ∃ e, try_from_static S v = Except.error e) := by
  unfold try_from_static
  by_cases h : NUM_ELEMENTS S = v.length
  · simp [h, Except.isOk, Except.toBool]
  · have hne : v.length ≠ NUM_ELEMENTS S := fun hv => h hv.symm
    refine ⟨?_, ?_, ?_⟩
    · simp [h, hne, Except.isOk, Except.toBool]
    · intro hv
      exact absurd hv.symm h
    · intro _
      have h2 : NUM_ELEMENTS S ≠ v.length := h
      exact ⟨_, if_pos h2⟩

/-- Witness for C7: the vector `[1,2,3,4]` with the static shape `[2,2]`
constructs successfully with its data unchanged. -/
theorem try_from_static_spec_witness :
    try_from_static [2, 2] [1, 2, 3, 4] = Except.ok [1, 2, 3, 4] :=
  (try_from_static_spec [2, 2] [1, 2, 3, 4]).2.1 (by decide)

/-- C8: transposing twice restores the shape, the strides, the backing data
and every logical element of the view, and the contiguity marker returns to
`Contiguous` when starting from `Contiguous` (`Contiguous` maps to
`Transposed` and `Transposed` maps back to `Contiguous`). -/
theorem transpose_involution (l : SliceLayout) :
    (transpose_view (transpose_view l)).shape = l.shape ∧
    (transpose_view (transpose_view l)).strides = l.strides ∧
    (transpose_view (transpose_view l)).data = l.data ∧
    (transpose_view (transpose_view l)).num_elements = l.num_elements ∧
    (∀ pos : List Nat,
      (transpose_view (transpose_view l)).logical_get pos = l.logical_get pos) ∧
    TransposePolicy.transposed TransposePolicy.Contiguous = TransposePolicy.Transposed ∧
    TransposePolicy.transposed TransposePolicy.Transposed = TransposePolicy.Contiguous := by
  refine ⟨?_, ?_, rfl, rfl, ?_, rfl, rfl⟩
  · simp [transpose_view]
  · simp [transpose_view]
  · intro pos
    simp [transpose_view, SliceLayout.logical_get, SliceLayout.linear_index]

/-- Witness for C8 at a concrete layout. -/
theorem transpose_involution_witness :
    (transpose_view (transpose_view c1_layout)).shape = c1_layout.shape ∧
    (transpose_view (transpose_view c1_layout)).strides = c1_layout.strides :=
  ⟨(transpose_involution c1_layout).1, (transpose_involution c1_layout).2.1⟩

/-- C9: a variable created with `track_gradient = false` has no gradient
accumulator, and no finite sequence of graph operations (leaf creation,
add/mul composition, backward invocations on any node with any gradient and
any recursion fuel) ever transitions its accumulator from `None` to `Some`:
`grad()` keeps returning `None`. -/
theorem untracked_variable_grad_stays_none (ops : List GraphOp) (store : Store) (i : Nat)
    (hlt : i < store.length) (hnone : grad_at store i = none) :
    grad_at (apply_ops store ops) i = none := by
  induction ops generalizing store with
  | nil => exact hnone
  | cons op rest ih =>
    exact ih (apply_op store op)
      (Nat.lt_of_lt_of_le hlt (length_apply_op store op))
      (grad_at_apply_op_none store op i hlt hnone)

/-- Witness for C9: an untracked leaf keeps `grad() = None` after being
consumed by a mul composition and two backward invocations. -/
theorem untracked_variable_grad_stays_none_witness :
    grad_at (apply_ops (variable_new [] [1, 2] false)
      [GraphOp.mul_op 0 0, GraphOp.backward_op 4 1 [3, 3],
       GraphOp.backward_op 4 0 [5, 5]]) 0 = none :=
  untracked_variable_grad_stays_none _ _ 0 (by decide) (by decide)

/-- C10: `try_from` on a dynamically shaped tensor whose trailing dimensions
are static with element-count product k succeeds exactly when the vector
length is a multiple of k, and on success the outermost dimension of the
runtime shape is inferred as the length divided by k. -/
theorem try_from_dynamic_spec (trailing : List Nat) (v : List Int)
    (_hpos : ∀ d ∈ trailing, 0 < d) :
    ((try_from_dynamic trailing v).isOk = true ↔
      v.length % NUM_ELEMENTS (1 :: trailing) = 0) ∧
    (v.length % NUM_ELEMENTS (1 :: trailing) = 0 →
      try_from_dynamic trailing v =
        Except.ok ((v.length / NUM_ELEMENTS (1 :: trailing)) :: trailing,
          intrinsic_strides_in_place (1 :: trailing), v)) := by
  unfold try_from_dynamic
  by_cases h : v.length % NUM_ELEMENTS (1 :: trailing) = 0 <;>
    simp [h, Except.isOk, Except.toBool]

/-- Witness for C10: eight elements against trailing static dimensions
`[2,2]` (k = 4) construct the runtime shape `[2,2,2]` with the reduced
shape's intrinsic strides and the data unchanged. -/
theorem try_from_dynamic_spec_witness :
    try_from_dynamic [2, 2] [1, 2, 3, 4, 5, 6, 7, 8] =
      Except.ok ([2, 2, 2], [4, 2, 1], [1, 2, 3, 4, 5, 6, 7, 8]) := by
  have h := (try_from_dynamic_spec [2, 2] [1, 2, 3, 4, 5, 6, 7, 8]
    (by decide)).2 (by decide)
  simpa using h

end Melange
